import Mathlib

/-!
# LocaleChecker — verification of the spec against the source

Shallow embedding of `src/LocaleChecker.py` (the `LocaleChecker` gramplet).
The gramplet's `main` routine reads locale data from a host-provided
`GrampsLocale` object, derives display strings, lists the translations
directory, and renders text lines; a `has_run` flag makes it a one-shot.

The host environment (locale object, catalog, filesystem answers) is
modelled as an immutable record `Env`; the panel state is the boolean
`has_run` flag; rendering is modelled as the ordered list of emitted
strings.
-/

namespace LocaleChecker

/-- Python `s.split("_")[0]` at the character level: the characters of `l`
before the first occurrence of `c` (all of `l` when `c` is absent). -/
def takeBefore (c : Char) : List Char → List Char
  | [] => []
  | x :: xs => if x = c then [] else x :: takeBefore c xs

/-- Python `s.split("_", 1)[1]` at the character level: the characters of `l`
after the first occurrence of `c` (`[]` when `c` is absent). -/
def dropThrough (c : Char) : List Char → List Char
  | [] => []
  | x :: xs => if x = c then xs else dropThrough c xs

/-- `re.search(r"\(([^)]+)\)", s)` on a character list: scan left to right
for the first position holding `(` followed by at least one character other
than `)` and then a `)`; return the group between the parentheses. -/
def reSearchParen : List Char → Option (List Char)
  | [] => none
  | c :: rest =>
    if c = '(' ∧ rest.takeWhile (fun x => x != ')') ≠ [] ∧ ')' ∈ rest
    then some (rest.takeWhile (fun x => x != ')'))
    else reSearchParen rest

/-- Lookup in a Python dict built by inserting the pairs of `l` in order
(later inserts overwrite earlier ones), i.e. the value of the last pair
whose key matches. -/
def dictGet (l : List (String × String)) (k : String) : Option String :=
  (l.reverse.find? (fun p => p.1 == k)).map Prod.snd

/-- Python `d.get(k, dflt)`. -/
def dictGetD (l : List (String × String)) (k dflt : String) : String :=
  (dictGet l k).getD dflt

/-- `{v: k for k, v in language_dict.items()}` — swap every pair; lookup via
`dictGet` then realises the dict's last-write-wins overwrite rule. -/
def code_to_name (language_dict : List (String × String)) :
    List (String × String) :=
  language_dict.map (fun p => (p.2, p.1))

/-- `gl.lang.split("_")[0] if gl.lang and "_" in gl.lang else gl.lang`
(`none` models an absent / `None` tag; `""` is falsy in Python). -/
def current_lang_base (lang : Option String) : Option String :=
  match lang with
  | none => none
  | some s =>
    if s.data ≠ [] ∧ '_' ∈ s.data
    then some (String.mk (takeBefore '_' s.data))
    else some s

/-- `code_to_name.get(current_lang_base, "Unknown")`; a `None` key is never
present in a dict whose keys are strings, so it yields the default. -/
def english_name (language_dict : List (String × String))
    (base : Option String) : String :=
  match base with
  | none => "Unknown"
  | some b => dictGetD (code_to_name language_dict) b "Unknown"

/-- `region = gl.lang.split("_", 1)[1] if gl.lang and "_" in gl.lang
else "N/A"` (lines 137–142). -/
def region (lang : Option String) : String :=
  match lang with
  | none => "N/A"
  | some s =>
    if s.data ≠ [] ∧ '_' ∈ s.data
    then String.mk (dropThrough '_' s.data)
    else "N/A"

/-- `variant`: the first parenthesized group of `english_name`, guarded by
`if english_name:` (lines 146–149). -/
def variant (en : String) : Option String :=
  if en ≠ "" then (reSearchParen en.data).map String.mk else none

/-- `region_display`: `f"{region} ({variant})"` when a variant exists, else
the plain region (lines 156–159). -/
def region_display (lang : Option String) (en : String) : String :=
  match variant en with
  | some v => region lang ++ " (" ++ v ++ ")"
  | none => region lang

/-- Python `"%s" % x` where `x` is an optional string: `None` renders as
the text `"None"`. -/
def pyStr (x : Option String) : String :=
  match x with
  | none => "None"
  | some s => s

/-- The host environment read by `main`: the `GrampsLocale` fields, the
language catalog, and the filesystem's answers about the locale directory.
Immutable for the duration of one report. -/
structure Env where
  lang : Option String
  locale_code : String
  language : String
  language_dict : List (String × String)
  localedir : Option String
  localedirIsDir : Bool
  listing : List String
  entryIsDir : String → Bool

/-- Lexicographic order on character lists by code point, the order Python
uses to compare strings. -/
def charsLe : List Char → List Char → Bool
  | [], _ => true
  | _ :: _, [] => false
  | x :: xs, y :: ys =>
    if x.toNat < y.toNat then true
    else if y.toNat < x.toNat then false
    else charsLe xs ys

/-- Stable ascending sort of strings, as Python `sorted` (lexicographic by
code point). -/
def insertStr (x : String) : List String → List String
  | [] => [x]
  | y :: ys => if charsLe x.data y.data then x :: y :: ys else y :: insertStr x ys

/-- Python `sorted(langs)`. -/
def sortStr (l : List String) : List String :=
  l.foldr insertStr []

/-- `langs = [d for d in os.listdir(localedir) if os.path.isdir(...)]`
(lines 180–183). -/
def langs (e : Env) : List String :=
  e.listing.filter e.entryIsDir

/-- The installed-languages block (lines 185–196): count header over all
subdirectories, then one line per sorted entry other than `.` and `..`. -/
def installedLines (e : Env) : List String :=
  ("\n<b>Additional Installed Languages (" ++ toString (langs e).length
      ++ ")</b>\n")
  :: ((sortStr (langs e)).filter (fun d => d != "." && d != "..")).map
      (fun d => "  " ++ d ++ ": "
        ++ dictGetD (code_to_name e.language_dict) d "Unknown" ++ "\n")

/-- The locale-directory section (lines 175–196): nothing when `localedir`
is absent or empty; the path line always; the installed block only when the
path is a directory on disk. -/
def localeSection (e : Env) : List String :=
  match e.localedir with
  | none => []
  | some dir =>
    if dir = "" then []
    else
      ("Locale Directory: " ++ dir ++ "\n")
        :: (if e.localedirIsDir then installedLines e else [])

/-- Every line `main` renders, in order, when the guard lets it run
(lines 117–196). -/
def reportLines (e : Env) : List String :=
  ["<b>Current Locale</b>\n",
   "Locale Code: " ++ e.locale_code ++ "\n",
   "Language: " ++ e.language ++ "\n",
   "Lang: " ++ pyStr e.lang ++ "\n",
   "Region: " ++ region_display e.lang
       (english_name e.language_dict (current_lang_base e.lang)) ++ "\n",
   "English Name: " ++ english_name e.language_dict (current_lang_base e.lang)
       ++ " (" ++ pyStr (current_lang_base e.lang) ++ ")\n"]
  ++ localeSection e

/-- `init` sets `self.has_run = False` (line 72). -/
def init_has_run : Bool := false

/-- One invocation of `main` (lines 74–77): the guard returns at once when
`has_run` is set; otherwise it sets the flag and emits the report. Returns
the new flag and the emitted lines. -/
def mainStep (has_run : Bool) (e : Env) : Bool × List String :=
  if has_run then (has_run, [])
  else (true, reportLines e)

/-- A sequence of invocations of `main` on one panel instance, threading the
flag; returns the final flag and each invocation's output. -/
def runMany (has_run : Bool) : List Env → Bool × List (List String)
  | [] => (has_run, [])
  | e :: es =>
    let r := mainStep has_run e
    let rs := runMany r.1 es
    (rs.1, r.2 :: rs.2)

/-- The atomic operations of one `main` body, in program order: after the
guard passes, first the assignment `self.has_run = True` (line 77), then
each rendering call. A run that raises partway executes a prefix. -/
inductive Action where
  | setFlag : Action
  | emit : String → Action
deriving DecidableEq

/-- The action trace of one invocation of `main`. -/
def mainActions (has_run : Bool) (e : Env) : List Action :=
  if has_run then [] else Action.setFlag :: (reportLines e).map Action.emit

/-- Execute a list of atomic actions from a given flag state. -/
def applyActs (has_run : Bool) : List Action → Bool × List String
  | [] => (has_run, [])
  | Action.setFlag :: rest => applyActs true rest
  | Action.emit s :: rest =>
    let r := applyActs has_run rest
    (r.1, s :: r.2)

/-- Python's module-level translator setup (lines 59–63): use the add-on
translator when `get_addon_translator` succeeds, fall back to the host's
core translation catalog when it raises `ValueError`. -/
def selectTranslator {α : Type} (getAddon : Except Unit α) (core : α) : α :=
  match getAddon with
  | Except.ok t => t
  | Except.error _ => core

/-- Environment used by concrete witnesses: an ordinary `en_US` locale. -/
def exEnv : Env :=
  { lang := some "en_US", locale_code := "en_US.UTF-8", language := "en",
    language_dict := [("English", "en")], localedir := some "/tr",
    localedirIsDir := true, listing := ["en"], entryIsDir := fun _ => true }

/-- Environment with an empty language tag and no locale directory. -/
def exEnvEmpty : Env :=
  { lang := some "", locale_code := "C", language := "en",
    language_dict := [("English", "en")], localedir := none,
    localedirIsDir := false, listing := [], entryIsDir := fun _ => false }

/-- The spec's worked example: translations directory with `en`, `fr`, `de`,
catalog containing only `en → English`. -/
def exEnvC4 : Env :=
  { lang := some "en_US", locale_code := "en_US.UTF-8", language := "en",
    language_dict := [("English", "en")], localedir := some "/tr",
    localedirIsDir := true, listing := ["en", "fr", "de"],
    entryIsDir := fun _ => true }

/-- A listing where the host filesystem returned `.` and `..` entries. -/
def exEnvDots : Env :=
  { lang := some "en_US", locale_code := "en_US.UTF-8", language := "en",
    language_dict := [("English", "en")], localedir := some "/tr",
    localedirIsDir := true, listing := ["fr", ".", "en", ".."],
    entryIsDir := fun _ => true }

/- ## Helper lemmas -/

theorem data_mk (l : List Char) : (String.mk l).data = l := rfl

theorem mk_ne_empty {l : List Char} (h : l ≠ []) : String.mk l ≠ "" := by
  intro hc
  exact h (by simpa using congrArg String.data hc)

theorem takeBefore_append {c : Char} {a : List Char} (b : List Char)
    (h : c ∉ a) : takeBefore c (a ++ c :: b) = a := by
  induction a with
  | nil => simp [takeBefore]
  | cons x xs ih =>
    simp only [List.mem_cons, not_or] at h
    have hx : x ≠ c := fun hh => h.1 hh.symm
    simp [takeBefore, hx, ih h.2]

theorem dropThrough_append {c : Char} {a : List Char} (b : List Char)
    (h : c ∉ a) : dropThrough c (a ++ c :: b) = b := by
  induction a with
  | nil => simp [dropThrough]
  | cons x xs ih =>
    simp only [List.mem_cons, not_or] at h
    have hx : x ≠ c := fun hh => h.1 hh.symm
    simp [dropThrough, hx, ih h.2]

theorem applyActs_emits (st : Bool) (ls : List String) :
    applyActs st (ls.map Action.emit) = (st, ls) := by
  induction ls with
  | nil => rfl
  | cons x xs ih => simp [applyActs, ih]

/-- Coherence of the action-trace model with the one-step model: running
the whole trace of `main` produces exactly what `mainStep` produces. -/
theorem mainStep_eq_applyActs (st : Bool) (e : Env) :
    mainStep st e = applyActs st (mainActions st e) := by
  cases st with
  | false => simp [mainStep, mainActions, applyActs, applyActs_emits, reportLines]
  | true => simp [mainStep, mainActions, applyActs]

theorem runMany_true (es : List Env) :
    runMany true es = (true, es.map fun _ => ([] : List String)) := by
  induction es with
  | nil => rfl
  | cons e es ih => simp [runMany, mainStep, ih]

/-- Environment whose `localedir` is set but is not a directory on disk. -/
def exEnvNoDir : Env :=
  { lang := some "en_US", locale_code := "en_US.UTF-8", language := "en",
    language_dict := [("English", "en")], localedir := some "/tr",
    localedirIsDir := false, listing := [], entryIsDir := fun _ => false }

theorem reSearchParen_append {p : List Char} (l : List Char)
    (h : '(' ∉ p) : reSearchParen (p ++ l) = reSearchParen l := by
  induction p with
  | nil => rfl
  | cons x xs ih =>
    simp only [List.mem_cons, not_or] at h
    have hx : ¬x = '(' := fun hh => h.1 hh.symm
    simp [reSearchParen, hx, ih h.2]

theorem takeWhile_close (grp rest : List Char) (h : ')' ∉ grp) :
    (grp ++ ')' :: rest).takeWhile (fun x => x != ')') = grp := by
  induction grp with
  | nil => simp
  | cons x xs ih =>
    simp only [List.mem_cons, not_or] at h
    have hx : ¬x = ')' := fun hh => h.1 hh.symm
    simp [List.takeWhile_cons, hx, ih h.2]

theorem reSearchParen_no_open (l : List Char) (h : '(' ∉ l) :
    reSearchParen l = none := by
  induction l with
  | nil => rfl
  | cons x xs ih =>
    simp only [List.mem_cons, not_or] at h
    have hx : ¬x = '(' := fun hh => h.1 hh.symm
    simp [reSearchParen, hx, ih h.2]

theorem find?_last {name k : String} :
    ∀ l : List (String × String), (l.map Prod.snd).Nodup → (name, k) ∈ l →
      l.find? (fun p => p.2 == k) = some (name, k) := by
  intro l
  induction l with
  | nil => intro _ h; exact absurd h (List.not_mem_nil _)
  | cons p t ih =>
    intro hnd hmem
    simp only [List.map_cons, List.nodup_cons] at hnd
    rcases List.mem_cons.mp hmem with h | h
    · rw [List.find?_cons_of_pos _ (by rw [← h]; simp)]
      exact congrArg some h.symm
    · have hk2 : k ∈ t.map Prod.snd := List.mem_map.mpr ⟨(name, k), h, rfl⟩
      have hp2 : p.2 ≠ k := fun hh => hnd.1 (hh ▸ hk2)
      rw [List.find?_cons_of_neg _ (by simp [hp2]), ih hnd.2 h]

/- ## Claim theorems -/

/-- C1: for every language tag containing an underscore, `base_code` equals
the substring before the first underscore and `region` the substring after
it; `region` is a function of the tag alone, never of a human-readable
name. -/
theorem c1_base_and_region (a b : List Char) (h : '_' ∉ a) :
    current_lang_base (some (String.mk (a ++ '_' :: b))) = some (String.mk a)
      ∧ region (some (String.mk (a ++ '_' :: b))) = String.mk b := by
  constructor
  · simp [current_lang_base, data_mk, takeBefore_append b h]
  · simp [region, data_mk, dropThrough_append b h]

theorem c1_base_and_region_witness :
    current_lang_base (some (String.mk (['z', 'h'] ++ '_' :: ['C', 'N'])))
        = some (String.mk ['z', 'h'])
      ∧ region (some (String.mk (['z', 'h'] ++ '_' :: ['C', 'N'])))
        = String.mk ['C', 'N'] :=
  c1_base_and_region ['z', 'h'] ['C', 'N'] (by decide)

/-- C5: starting from the freshly initialised panel, only the first
invocation of `main` emits output; every later invocation is a no-op, and
the flag moves once to `true` and stays there. -/
theorem c5_one_shot (e : Env) (es : List Env) :
    runMany init_has_run (e :: es)
        = (true, reportLines e :: es.map fun _ => ([] : List String))
      ∧ ∀ e2 : Env, mainStep true e2 = (true, []) := by
  constructor
  · simp [runMany, init_has_run, mainStep, runMany_true es]
  · intro e2; rfl

/-- C7: when `localedir` is absent or empty no locale-directory output at
all is produced, and when it is set but is not a directory only the path
line is produced — never the installed-languages header or entries. -/
theorem c7_skip_installed (e : Env) :
    (e.localedir = none → localeSection e = [])
      ∧ (e.localedir = some "" → localeSection e = [])
      ∧ ∀ dir : String, e.localedir = some dir → dir ≠ "" →
          e.localedirIsDir = false →
          localeSection e = ["Locale Directory: " ++ dir ++ "\n"] := by
  refine ⟨fun h => ?_, fun h => ?_, fun dir h hne hdir => ?_⟩
  · simp [localeSection, h]
  · simp [localeSection, h]
  · simp [localeSection, h, hne, hdir]

theorem c7_skip_installed_witness :
    localeSection exEnvEmpty = []
      ∧ localeSection exEnvNoDir = ["Locale Directory: /tr\n"] :=
  ⟨(c7_skip_installed exEnvEmpty).1 rfl,
   (c7_skip_installed exEnvNoDir).2.2 "/tr" rfl (by decide) rfl⟩

/-- C9: module-level translator setup — when `get_addon_translator` raises,
the component falls back to the host's core translation catalog; when it
succeeds, its result is used; both cases return normally. -/
theorem c9_translator_fallback (core t : String) :
    selectTranslator (Except.error ()) core = core
      ∧ selectTranslator (Except.ok t) core = t :=
  ⟨rfl, rfl⟩

/-- C10: the guard flag is the first action of the body, so after any
nonempty prefix of the body's actions (a run that raised partway included)
the flag is `true` and a later invocation emits nothing. -/
theorem c10_flag_set_first (e e2 : Env) (k : Nat) (hk : 1 ≤ k) :
    (mainActions init_has_run e).head? = some Action.setFlag
      ∧ (applyActs init_has_run ((mainActions init_has_run e).take k)).1 = true
      ∧ mainStep (applyActs init_has_run
            ((mainActions init_has_run e).take k)).1 e2 = (true, []) := by
  obtain ⟨j, rfl⟩ : ∃ j, k = j + 1 := ⟨k - 1, by omega⟩
  have htake : (mainActions init_has_run e).take (j + 1)
      = Action.setFlag :: ((reportLines e).take j).map Action.emit := by
    show (Action.setFlag :: (reportLines e).map Action.emit).take (j + 1) = _
    simp [List.take_succ_cons, List.map_take]
  have happ : applyActs init_has_run ((mainActions init_has_run e).take (j + 1))
      = (true, (reportLines e).take j) := by
    rw [htake]
    simpa [applyActs] using applyActs_emits true ((reportLines e).take j)
  exact ⟨rfl, by rw [happ], by rw [happ]; rfl⟩

/-- C2 counterexample: for the empty language tag the code keeps
`base_code = ""`, not `"Unknown"`, and the english-name line renders the
empty base code as `()`. -/
theorem c2_counterexample :
    current_lang_base (some "") = some ""
      ∧ some "" ≠ some ("Unknown" : String)
      ∧ current_lang_base none ≠ some "Unknown"
      ∧ reportLines exEnvEmpty
        = ["<b>Current Locale</b>\n", "Locale Code: C\n", "Language: en\n",
           "Lang: \n", "Region: N/A\n", "English Name: Unknown ()\n"] := by
  decide

/-- C2 (amended): for an absent tag `base_code` stays absent and for an
empty tag it is the empty string (never the string `"Unknown"`); in both
cases the resolved english name defaults to `"Unknown"` and region is
`"N/A"`; for a non-empty tag without an underscore `base_code` equals the
tag and region is `"N/A"`. -/
theorem c2_empty_tag :
    (current_lang_base none = none ∧ region none = "N/A"
        ∧ ∀ d : List (String × String), english_name d none = "Unknown")
      ∧ (current_lang_base (some "") = some "" ∧ region (some "") = "N/A"
        ∧ ∀ d : List (String × String),
            dictGet (code_to_name d) "" = none →
              english_name d (some "") = "Unknown")
      ∧ ∀ s : String, s ≠ "" → '_' ∉ s.data →
          current_lang_base (some s) = some s ∧ region (some s) = "N/A" := by
  refine ⟨⟨rfl, rfl, fun d => rfl⟩, ⟨rfl, rfl, fun d hd => ?_⟩,
    fun s h1 h2 => ⟨?_, ?_⟩⟩
  · simp [english_name, dictGetD, hd]
  · simp [current_lang_base, h2]
  · simp [region, h2]

theorem c2_empty_tag_witness :
    current_lang_base (some "fr") = some "fr" ∧ region (some "fr") = "N/A" :=
  c2_empty_tag.2.2 "fr" (by decide) (by decide)

/-- C3: the variant is the group of the first parenthesized `(...)` in
`english_name` (at least one character, none of them `)`); the display is
`"{region} ({variant})"` when a variant exists, and the plain region when
`english_name` has no parentheses. -/
theorem c3_variant (pre grp rest : List Char)
    (h1 : '(' ∉ pre) (h2 : grp ≠ []) (h3 : ')' ∉ grp) :
    variant (String.mk (pre ++ '(' :: (grp ++ ')' :: rest)))
        = some (String.mk grp)
      ∧ variant "Chinese (Simplified)" = some "Simplified"
      ∧ region_display (some "zh_CN") "Chinese (Simplified)"
          = "CN (Simplified)"
      ∧ ∀ en : String, '(' ∉ en.data →
          variant en = none ∧ ∀ lg : Option String,
            region_display lg en = region lg := by
  refine ⟨?_, by decide, by decide, fun en hen => ?_⟩
  · have hne : String.mk (pre ++ '(' :: (grp ++ ')' :: rest)) ≠ "" :=
      mk_ne_empty (by simp)
    have hr := reSearchParen_append ('(' :: (grp ++ ')' :: rest)) h1
    simp [variant, hne, data_mk, hr, reSearchParen,
      takeWhile_close grp rest h3, h2]
  · by_cases he : en = ""
    · subst he
      exact ⟨rfl, fun lg => rfl⟩
    · have hv : variant en = none := by
        simp [variant, he, reSearchParen_no_open en.data hen]
      exact ⟨hv, fun lg => by simp [region_display, hv]⟩

theorem c3_variant_witness :
    variant (String.mk
        (['C', 'h'] ++ '(' :: (['S', 'i', 'm'] ++ ')' :: ['!'])))
      = some (String.mk ['S', 'i', 'm']) :=
  (c3_variant ['C', 'h'] ['S', 'i', 'm'] ['!']
    (by decide) (by decide) (by decide)).1

/-- C4: when the translations directory exists, the section is the path
line, then a count header over all immediate subdirectories (`.`/`..`
included in the count), then one `"  code: name"` line per sorted
subdirectory other than `.` and `..`, with the catalog name or
`"Unknown"`; includes the spec's `en`/`fr`/`de` worked example and a
listing polluted with `.` and `..`. -/
theorem c4_installed_section (e : Env) (dir : String)
    (h1 : e.localedir = some dir) (h2 : dir ≠ "")
    (h3 : e.localedirIsDir = true) :
    localeSection e
        = ("Locale Directory: " ++ dir ++ "\n")
          :: ("\n<b>Additional Installed Languages ("
                ++ toString (e.listing.filter e.entryIsDir).length
                ++ ")</b>\n")
          :: ((sortStr (e.listing.filter e.entryIsDir)).filter
                (fun d => d != "." && d != "..")).map
              (fun d => "  " ++ d ++ ": "
                ++ dictGetD (code_to_name e.language_dict) d "Unknown"
                ++ "\n")
      ∧ localeSection exEnvC4
        = ["Locale Directory: /tr\n",
           "\n<b>Additional Installed Languages (3)</b>\n",
           "  de: Unknown\n", "  en: English\n", "  fr: Unknown\n"]
      ∧ localeSection exEnvDots
        = ["Locale Directory: /tr\n",
           "\n<b>Additional Installed Languages (4)</b>\n",
           "  en: English\n", "  fr: Unknown\n"] := by
  refine ⟨?_, by decide, by decide⟩
  simp [localeSection, h1, h2, h3, installedLines, langs]

theorem c4_installed_section_witness :
    localeSection exEnvC4
      = ("Locale Directory: " ++ "/tr" ++ "\n")
        :: ("\n<b>Additional Installed Languages ("
              ++ toString (exEnvC4.listing.filter exEnvC4.entryIsDir).length
              ++ ")</b>\n")
        :: ((sortStr (exEnvC4.listing.filter exEnvC4.entryIsDir)).filter
              (fun d => d != "." && d != "..")).map
            (fun d => "  " ++ d ++ ": "
              ++ dictGetD (code_to_name exEnvC4.language_dict) d "Unknown"
              ++ "\n") :=
  (c4_installed_section exEnvC4 "/tr" rfl (by decide) rfl).1

/-- C6: the inverted catalog's lookup returns the name of the last catalog
pair carrying the code (Python dict last-write-wins); with no duplicate
codes it returns the original name of any catalog pair; an absent code
yields `"Unknown"`. -/
theorem c6_inversion (d : List (String × String)) (k : String) :
    dictGet (code_to_name d) k
        = (d.reverse.find? (fun p => p.2 == k)).map Prod.fst
      ∧ (∀ name : String, (d.map Prod.snd).Nodup → (name, k) ∈ d →
          dictGetD (code_to_name d) k "Unknown" = name)
      ∧ (k ∉ d.map Prod.snd →
          dictGetD (code_to_name d) k "Unknown" = "Unknown") := by
  have h1 : dictGet (code_to_name d) k
      = (d.reverse.find? (fun p => p.2 == k)).map Prod.fst := by
    simp only [dictGet, code_to_name, ← List.map_reverse, List.find?_map,
      Option.map_map]
    rfl
  refine ⟨h1, fun name hnd hmem => ?_, fun hk => ?_⟩
  · have hnd2 : (d.reverse.map Prod.snd).Nodup := by
      rw [List.map_reverse]
      exact List.nodup_reverse.mpr hnd
    have hmem2 : (name, k) ∈ d.reverse := List.mem_reverse.mpr hmem
    rw [dictGetD, h1, find?_last d.reverse hnd2 hmem2]
    rfl
  · have hnone : d.reverse.find? (fun p => p.2 == k) = none := by
      rw [List.find?_eq_none]
      intro x hx
      have hxm : x.2 ∈ d.map Prod.snd :=
        List.mem_map.mpr ⟨x, List.mem_reverse.mp hx, rfl⟩
      simp only [beq_iff_eq]
      exact fun hh => hk (hh ▸ hxm)
    rw [dictGetD, h1, hnone]
    rfl

theorem c6_inversion_witness :
    dictGetD (code_to_name [("English", "en")]) "en" "Unknown" = "English"
      ∧ dictGetD (code_to_name [("English", "en")]) "fr" "Unknown"
        = "Unknown" :=
  ⟨(c6_inversion [("English", "en")] "en").2.1 "English"
      (by decide) (by decide),
   (c6_inversion [("English", "en")] "fr").2.2 (by decide)⟩

/-- C8: the english-name line is always
`"English Name: {english_name} ({base_code})"` with `english_name` the
inverted-catalog lookup of `base_code` defaulting to `"Unknown"`; for tag
`zh_CN` and catalog `{"Chinese (Simplified)": "zh"}` the region display is
`"CN (Simplified)"` and the line shows `"Chinese (Simplified) (zh)"`. -/
theorem c8_english_name_line (e : Env) :
    (reportLines e)[5]?
        = some ("English Name: "
            ++ english_name e.language_dict (current_lang_base e.lang)
            ++ " (" ++ pyStr (current_lang_base e.lang) ++ ")\n")
      ∧ (∀ d : List (String × String), ∀ b : String,
          english_name d (some b) = dictGetD (code_to_name d) b "Unknown")
      ∧ region_display (some "zh_CN")
          (english_name [("Chinese (Simplified)", "zh")]
            (current_lang_base (some "zh_CN"))) = "CN (Simplified)"
      ∧ "English Name: "
          ++ english_name [("Chinese (Simplified)", "zh")]
              (current_lang_base (some "zh_CN"))
          ++ " (" ++ pyStr (current_lang_base (some "zh_CN")) ++ ")\n"
          = "English Name: Chinese (Simplified) (zh)\n" := by
  refine ⟨?_, fun d b => rfl, by decide, by decide⟩
  simp [reportLines]

theorem c10_flag_set_first_witness :
    (mainActions init_has_run exEnv).head? = some Action.setFlag
      ∧ (applyActs init_has_run ((mainActions init_has_run exEnv).take 1)).1
          = true
      ∧ mainStep (applyActs init_has_run
            ((mainActions init_has_run exEnv).take 1)).1 exEnvEmpty
          = (true, []) :=
  c10_flag_set_first exEnv exEnvEmpty 1 (by decide)

end LocaleChecker
